import Mathlib

/-!
Shallow embedding of the grid-game rules engine (src/gridgame/model.py):
the rule-strategy family (Classic tic-tac-toe, Wild, reserved Notakto) and
the match orchestrator GridGameModel.  Python exceptions are modelled with
Except GameError; in-place board mutation is modelled by having the
strategy return the (possibly updated) Field alongside the Feedback, and
the orchestrator return the updated model.
-/

namespace GridGame

abbrev Symbol := String

/-- Cell is a (row, column) coordinate pair, 1-indexed; coordinates are
integers so that out-of-bounds coordinates (0, negative, > grid_size) are
representable. -/
structure Cell where
  row : Int
  col : Int
deriving DecidableEq, Repr

/-- Feedback is the enumerated result of an attempted placement. -/
inductive Feedback where
  | VALID
  | GAME_OVER
  | INVALID_SYMBOL
  | OUT_OF_BOUNDS
  | OCCUPIED
deriving DecidableEq, Repr

/-- GameError models the Python exceptions the module can raise:
ValueError (invalid-argument), KeyError (missing dict key), and
NotImplementedError (not-supported). -/
inductive GameError where
  | valueError (msg : String)
  | keyError
  | notImplementedError
deriving DecidableEq, Repr

/-- Equality of Except results is decidable when both components are; this
lets concrete runs of the embedded operations be checked by evaluation. -/
def exceptDecEq {ε α : Type} [DecidableEq ε] [DecidableEq α] :
    (a b : Except ε α) → Decidable (a = b)
  | Except.error e1, Except.error e2 =>
    if h : e1 = e2 then isTrue (by rw [h])
    else isFalse (by intro hc; cases hc; exact h rfl)
  | Except.error _, Except.ok _ => isFalse (by intro hc; cases hc)
  | Except.ok _, Except.error _ => isFalse (by intro hc; cases hc)
  | Except.ok a1, Except.ok a2 =>
    if h : a1 = a2 then isTrue (by rw [h])
    else isFalse (by intro hc; cases hc; exact h rfl)

instance {ε α : Type} [DecidableEq ε] [DecidableEq α] : DecidableEq (Except ε α) :=
  exceptDecEq

/-- Modelled from the spec: the Field collaborator (grid/board storage,
not under src/) is "the grid_size × grid_size board; maps occupied Cells
to Symbols; exposes the valid coordinate range 1..grid_size".  The
occupied-cell mapping is an association list queried by lookup. -/
structure Field where
  grid_size : Nat
  cells : List (Cell × Symbol)
deriving DecidableEq, Repr

/-- Modelled from the spec: get_symbol_at(cell) → optional Symbol. -/
def Field.get_symbol_at (f : Field) (c : Cell) : Option Symbol :=
  f.cells.lookup c

/-- Modelled from the spec: is_within_bounds(cell) — the cell lies inside
1..grid_size on both axes. -/
def Field.is_within_bounds (f : Field) (c : Cell) : Bool :=
  decide (1 ≤ c.row) && decide (c.row ≤ (f.grid_size : Int)) &&
  decide (1 ≤ c.col) && decide (c.col ≤ (f.grid_size : Int))

/-- Modelled from the spec: place_symbol(symbol, cell) mutates the board,
recording the symbol at the cell. -/
def Field.place_symbol (f : Field) (s : Symbol) (c : Cell) : Field :=
  { f with cells := (c, s) :: f.cells }

/-- Modelled from the spec: valid_coords is the ordered index range
1..grid_size. -/
def Field.valid_coords (f : Field) : List Int :=
  (List.range f.grid_size).map (fun k : Nat => (k : Int) + 1)

/-- Modelled from the spec: are_all_equal_to_basis(basis, group) — every
cell in the group holds a symbol equal to the basis. -/
def Field.are_all_equal_to_basis (f : Field) (basis : Symbol) (group : List Cell) : Bool :=
  group.all (fun c => f.get_symbol_at c == some basis)

/-- Modelled from the spec: has_unoccupied_cell() — some cell of the
grid_size × grid_size board is unoccupied. -/
def Field.has_unoccupied_cell (f : Field) : Bool :=
  f.valid_coords.any (fun r =>
    f.valid_coords.any (fun c => (f.get_symbol_at (Cell.mk r c)).isNone))

/-- Modelled from the spec: occupied_cells — the mapping Cell → Symbol of
occupied cells. -/
def Field.occupied_cells (f : Field) : List (Cell × Symbol) :=
  f.cells

/-- Shared by both implemented strategies: the row, column and diagonal
cell groups of TicTacToeGameType.winner / WildTicTacToeGameType.winner
(model.py lines 42-58 and 100-116), concatenated in the order the source
iterates them: row groups, then column groups, then the backslash diagonal
and the forward-slash diagonal (column = grid_size - row + 1). -/
def line_groups (field : Field) : List (List Cell) :=
  (field.valid_coords.map (fun row =>
    field.valid_coords.map (fun k => Cell.mk row k))) ++
  (field.valid_coords.map (fun col =>
    field.valid_coords.map (fun k => Cell.mk k col))) ++
  [field.valid_coords.map (fun k => Cell.mk k k),
   field.valid_coords.map (fun k => Cell.mk k ((field.grid_size : Int) - k + 1))]

/-- The per-group test of the winner scan (model.py lines 62-63): the
group's first cell is occupied and every cell of the group holds a symbol
equal to that basis.  An empty group (only possible when grid_size = 0)
has no first cell and never wins. -/
def group_wins (field : Field) (group : List Cell) : Bool :=
  match group.head? with
  | none => false
  | some c0 =>
    match field.get_symbol_at c0 with
    | none => false
    | some basis => field.are_all_equal_to_basis basis group

namespace TicTacToeGameType

/-- TicTacToeGameType.place_symbol (model.py lines 22-39). -/
def place_symbol (symbol : Symbol) (cell : Cell) (is_game_over : Bool)
    (get_symbol_choices : List Symbol) (field : Field) : Feedback × Field :=
  if is_game_over then (Feedback.GAME_OVER, field)
  else if symbol ∉ get_symbol_choices then (Feedback.INVALID_SYMBOL, field)
  else if !(field.is_within_bounds cell) then (Feedback.OUT_OF_BOUNDS, field)
  else if (field.get_symbol_at cell).isSome then (Feedback.OCCUPIED, field)
  else (Feedback.VALID, field.place_symbol symbol cell)

/-- TicTacToeGameType.winner (model.py lines 41-70): scan the groups in
order and return the passed player at the first winning group, else None. -/
def winner (field : Field) (player : Nat) (symbol : Symbol) : Option Nat :=
  match (line_groups field).find? (group_wins field) with
  | some _ => some player
  | none => none

/-- TicTacToeGameType.get_symbol_choices (model.py lines 72-76). -/
def get_symbol_choices (player : Nat)
    (player_to_symbol : List (Nat × Symbol)) : Except GameError (List Symbol) :=
  match player_to_symbol.lookup player with
  | none => Except.error (GameError.valueError "Invalid player")
  | some s => Except.ok [s]

end TicTacToeGameType

namespace WildTicTacToeGameType

/-- WildTicTacToeGameType.place_symbol (model.py lines 80-97); its body is
identical to the Classic one. -/
def place_symbol (symbol : Symbol) (cell : Cell) (is_game_over : Bool)
    (get_symbol_choices : List Symbol) (field : Field) : Feedback × Field :=
  if is_game_over then (Feedback.GAME_OVER, field)
  else if symbol ∉ get_symbol_choices then (Feedback.INVALID_SYMBOL, field)
  else if !(field.is_within_bounds cell) then (Feedback.OUT_OF_BOUNDS, field)
  else if (field.get_symbol_at cell).isSome then (Feedback.OCCUPIED, field)
  else (Feedback.VALID, field.place_symbol symbol cell)

/-- WildTicTacToeGameType.winner (model.py lines 99-126); identical scan
to the Classic one. -/
def winner (field : Field) (player : Nat) (symbol : Symbol) : Option Nat :=
  match (line_groups field).find? (group_wins field) with
  | some _ => some player
  | none => none

/-- WildTicTacToeGameType.get_symbol_choices (model.py lines 128-132):
all players' assigned symbols, in player order. -/
def get_symbol_choices (player : Nat)
    (player_to_symbol : List (Nat × Symbol)) : Except GameError (List Symbol) :=
  if (player_to_symbol.lookup player).isSome then
    Except.ok (player_to_symbol.map Prod.snd)
  else Except.error (GameError.valueError "Invalid player")

end WildTicTacToeGameType

/-- The rule-strategy variants: Classic tic-tac-toe, Wild, and the
reserved Notakto variant (model.py classes TicTacToeGameType,
WildTicTacToeGameType, NotaktoGameType). -/
inductive GameType where
  | tictactoe
  | wild
  | notakto
deriving DecidableEq, Repr

/-- Strategy dispatch for place_symbol; NotaktoGameType.place_symbol
(model.py lines 135-138) raises NotImplementedError. -/
def GameType.place_symbol (g : GameType) (symbol : Symbol) (cell : Cell)
    (is_game_over : Bool) (choices : List Symbol) (field : Field) :
    Except GameError (Feedback × Field) :=
  match g with
  | .tictactoe => Except.ok (TicTacToeGameType.place_symbol symbol cell is_game_over choices field)
  | .wild => Except.ok (WildTicTacToeGameType.place_symbol symbol cell is_game_over choices field)
  | .notakto => Except.error GameError.notImplementedError

/-- Strategy dispatch for winner; NotaktoGameType.winner (model.py lines
140-141) raises NotImplementedError. -/
def GameType.winner (g : GameType) (field : Field) (player : Nat)
    (symbol : Symbol) : Except GameError (Option Nat) :=
  match g with
  | .tictactoe => Except.ok (TicTacToeGameType.winner field player symbol)
  | .wild => Except.ok (WildTicTacToeGameType.winner field player symbol)
  | .notakto => Except.error GameError.notImplementedError

/-- Strategy dispatch for get_symbol_choices; NotaktoGameType's (model.py
lines 143-144) raises NotImplementedError. -/
def GameType.get_symbol_choices (g : GameType) (player : Nat)
    (player_to_symbol : List (Nat × Symbol)) : Except GameError (List Symbol) :=
  match g with
  | .tictactoe => TicTacToeGameType.get_symbol_choices player player_to_symbol
  | .wild => WildTicTacToeGameType.get_symbol_choices player player_to_symbol
  | .notakto => Except.error GameError.notImplementedError

/-- The dict comprehension enumerate(player_symbols, start=1) of
GridGameModel.__init__ (model.py lines 172-175): players k, k+1, ... are
paired with the symbols in order. -/
def assign_symbols (k : Nat) : List Symbol → List (Nat × Symbol)
  | [] => []
  | s :: rest => (k, s) :: assign_symbols (k + 1) rest

/-- GridGameModel state (model.py lines 148-180). -/
structure GridGameModel where
  valid_symbols : List Symbol
  game_type : GameType
  field : Field
  player_count : Nat
  player_to_symbol : List (Nat × Symbol)
  current_player : Nat
deriving DecidableEq, Repr

/-- GridGameModel.__init__ (model.py lines 149-180): validation in source
order, then the initial state with current_player = 1. -/
def GridGameModel.init (grid_size : Nat) (player_symbols : List Symbol)
    (player_count : Nat) (game_type : GameType) : Except GameError GridGameModel :=
  if player_count ≤ 1 then
    Except.error (GameError.valueError "Must have at least two players")
  else if ¬ player_symbols.Nodup then
    Except.error (GameError.valueError "Player symbols must be unique")
  else if player_symbols.length ≠ player_count then
    Except.error (GameError.valueError "Player symbols must be exactly player_count")
  else
    Except.ok
      { valid_symbols := player_symbols
        game_type := game_type
        field := { grid_size := grid_size, cells := [] }
        player_count := player_count
        player_to_symbol := assign_symbols 1 player_symbols
        current_player := 1 }

/-- GridGameModel.next_player (model.py lines 205-210). -/
def GridGameModel.next_player (m : GridGameModel) : Nat :=
  if m.current_player ≠ m.player_count then m.current_player + 1 else 1

/-- GridGameModel.winner (model.py lines 212-214): looks up the current
player's assigned symbol (KeyError if absent) and delegates to the
strategy. -/
def GridGameModel.winner (m : GridGameModel) : Except GameError (Option Nat) :=
  match m.player_to_symbol.lookup m.current_player with
  | none => Except.error GameError.keyError
  | some s => m.game_type.winner m.field m.current_player s

/-- GridGameModel.is_game_over (model.py lines 190-195): winner non-null
or no unoccupied cell remains. -/
def GridGameModel.is_game_over (m : GridGameModel) : Except GameError Bool :=
  match m.winner with
  | Except.error e => Except.error e
  | Except.ok w => Except.ok (w.isSome || !(m.field.has_unoccupied_cell))

/-- GridGameModel.get_symbol_choices (model.py lines 216-217). -/
def GridGameModel.get_symbol_choices (m : GridGameModel) (player : Nat) :
    Except GameError (List Symbol) :=
  m.game_type.get_symbol_choices player m.player_to_symbol

/-- GridGameModel._switch_to_next_player (model.py lines 227-228). -/
def GridGameModel.switch_to_next_player (m : GridGameModel) : GridGameModel :=
  { m with current_player := m.next_player }

/-- GridGameModel.place_symbol (model.py lines 219-225): queries
is_game_over, delegates to the strategy with the full valid-symbol list,
and — only when the result is VALID — re-queries is_game_over on the
updated board and advances the turn when the game is not over.  The
short-circuit of the Python conjunction is preserved: is_game_over is not
re-evaluated on a non-VALID result. -/
def GridGameModel.place_symbol (m : GridGameModel) (symbol : Symbol) (cell : Cell) :
    Except GameError (Feedback × GridGameModel) :=
  match m.is_game_over with
  | Except.error e => Except.error e
  | Except.ok over =>
    match m.game_type.place_symbol symbol cell over m.valid_symbols m.field with
    | Except.error e => Except.error e
    | Except.ok (feedback, field2) =>
      let m2 : GridGameModel := { m with field := field2 }
      if feedback = Feedback.VALID then
        match m2.is_game_over with
        | Except.error e => Except.error e
        | Except.ok over2 =>
          if over2 then Except.ok (feedback, m2)
          else Except.ok (feedback, m2.switch_to_next_player)
      else Except.ok (feedback, m2)

/-- Replacing a model's field by its own field is the identity (structure
eta); used to show that a rejected placement returns the model unchanged. -/
@[simp] lemma update_field_self (m : GridGameModel) :
    ({ m with field := m.field } : GridGameModel) = m := rfl

/-- Fresh 3 × 3 board. -/
def empty3 : Field := { grid_size := 3, cells := [] }

/-- Classic match fixture: grid 3, players 1 ↦ X and 2 ↦ O. -/
def classicXO : GridGameModel :=
  { valid_symbols := ["X", "O"]
    game_type := GameType.tictactoe
    field := empty3
    player_count := 2
    player_to_symbol := [(1, "X"), (2, "O")]
    current_player := 1 }

/-- Wild match fixture: grid 3, players 1 ↦ X and 2 ↦ O. -/
def wildXO : GridGameModel :=
  { valid_symbols := ["X", "O"]
    game_type := GameType.wild
    field := empty3
    player_count := 2
    player_to_symbol := [(1, "X"), (2, "O")]
    current_player := 1 }

/-- Board whose first row is filled with O and nothing else. -/
def rowO_field : Field :=
  { grid_size := 3
    cells := [(Cell.mk 1 1, "O"), (Cell.mk 1 2, "O"), (Cell.mk 1 3, "O")] }

/-- C1 counterexample: in a fresh Classic match (game not over, current
player 1 whose only allowed symbol is X), placing the other player's
symbol O is NOT rejected with INVALID_SYMBOL: the orchestrator passes the
full valid-symbol list to the strategy, so the call returns VALID and
mutates the board, refuting the claim. -/
theorem C1_counterexample :
    GridGameModel.init 3 ["X", "O"] 2 GameType.tictactoe = Except.ok classicXO ∧
    classicXO.is_game_over = Except.ok false ∧
    classicXO.current_player = 1 ∧
    classicXO.get_symbol_choices 1 = Except.ok ["X"] ∧
    ("O" ∈ (["X"] : List Symbol)) = False ∧
    classicXO.place_symbol "O" (Cell.mk 1 1) =
      Except.ok (Feedback.VALID,
        { classicXO with
            field := { grid_size := 3, cells := [(Cell.mk 1 1, "O")] }
            current_player := 2 }) := by
  refine ⟨by decide, by decide, rfl, by decide, by decide, by decide⟩

/-- C1 (amended): in a Classic-mode match whose game is not over, the
orchestrator's place_symbol returns INVALID_SYMBOL — and leaves the model,
hence the board and current_player, unchanged — whenever the symbol is not
among the match's full valid-symbol list (all players' assigned symbols). -/
theorem C1_classic_invalid_symbol (m : GridGameModel) (symbol : Symbol) (cell : Cell)
    (hmode : m.game_type = GameType.tictactoe)
    (hover : m.is_game_over = Except.ok false)
    (hsym : symbol ∉ m.valid_symbols) :
    m.place_symbol symbol cell = Except.ok (Feedback.INVALID_SYMBOL, m) := by
  have hstrat : m.game_type.place_symbol symbol cell false m.valid_symbols m.field =
      Except.ok (Feedback.INVALID_SYMBOL, m.field) := by
    rw [hmode]
    simp [GameType.place_symbol, TicTacToeGameType.place_symbol, hsym]
  unfold GridGameModel.place_symbol
  rw [hover]
  simp [hstrat]

/-- Witness for C1 (amended) at a concrete input: symbol Z belongs to no
player of the X/O Classic match, so placing it is rejected without
mutation. -/
theorem C1_witness :
    classicXO.game_type = GameType.tictactoe ∧
    classicXO.is_game_over = Except.ok false ∧
    ("Z" ∉ classicXO.valid_symbols) ∧
    classicXO.place_symbol "Z" (Cell.mk 1 1) =
      Except.ok (Feedback.INVALID_SYMBOL, classicXO) :=
  ⟨rfl, by decide, by decide,
    C1_classic_invalid_symbol classicXO "Z" (Cell.mk 1 1) rfl (by decide) (by decide)⟩

/-- C3: for both the Classic and Wild strategies, place_symbol evaluates
its checks in strict order with short-circuit: GAME_OVER first, then
INVALID_SYMBOL (even when the cell is also out of bounds), then
OUT_OF_BOUNDS, then OCCUPIED; otherwise the symbol is placed and VALID is
returned. -/
theorem C3_place_symbol_precedence (g : GameType)
    (hg : g = GameType.tictactoe ∨ g = GameType.wild)
    (symbol : Symbol) (cell : Cell) (over : Bool) (choices : List Symbol) (field : Field) :
    (over = true →
      g.place_symbol symbol cell over choices field =
        Except.ok (Feedback.GAME_OVER, field)) ∧
    (over = false → symbol ∉ choices →
      g.place_symbol symbol cell over choices field =
        Except.ok (Feedback.INVALID_SYMBOL, field)) ∧
    (over = false → symbol ∈ choices → field.is_within_bounds cell = false →
      g.place_symbol symbol cell over choices field =
        Except.ok (Feedback.OUT_OF_BOUNDS, field)) ∧
    (over = false → symbol ∈ choices → field.is_within_bounds cell = true →
      (field.get_symbol_at cell).isSome = true →
      g.place_symbol symbol cell over choices field =
        Except.ok (Feedback.OCCUPIED, field)) ∧
    (over = false → symbol ∈ choices → field.is_within_bounds cell = true →
      field.get_symbol_at cell = none →
      g.place_symbol symbol cell over choices field =
        Except.ok (Feedback.VALID, field.place_symbol symbol cell)) := by
  refine ⟨?_, ?_, ?_, ?_, ?_⟩ <;> intros <;> rcases hg with rfl | rfl <;>
    simp_all [GameType.place_symbol, TicTacToeGameType.place_symbol,
      WildTicTacToeGameType.place_symbol]

/-- Witness for C3 at concrete inputs: with the game not over and cell
(9, 9) both out of bounds and using a disallowed symbol, the symbol check
wins and INVALID_SYMBOL is returned; and on a game-over board any call
returns GAME_OVER. -/
theorem C3_witness :
    empty3.is_within_bounds (Cell.mk 9 9) = false ∧
    GameType.tictactoe.place_symbol "X" (Cell.mk 9 9) false ["O"] empty3 =
      Except.ok (Feedback.INVALID_SYMBOL, empty3) ∧
    GameType.wild.place_symbol "X" (Cell.mk 9 9) true ["O"] empty3 =
      Except.ok (Feedback.GAME_OVER, empty3) :=
  ⟨by decide,
    (C3_place_symbol_precedence GameType.tictactoe (Or.inl rfl) "X" (Cell.mk 9 9)
      false ["O"] empty3).2.1 rfl (by decide),
    (C3_place_symbol_precedence GameType.wild (Or.inr rfl) "X" (Cell.mk 9 9)
      true ["O"] empty3).1 rfl⟩

/-- C10: every operation of the reserved Notakto variant fails with the
distinct not-supported error (NotImplementedError) and never returns a
Feedback or any other ordinary value; the error is distinct from the
invalid-argument and key errors. -/
theorem C10_notakto_not_supported (symbol : Symbol) (cell : Cell) (over : Bool)
    (choices : List Symbol) (field : Field) (player : Nat)
    (pts : List (Nat × Symbol)) :
    GameType.notakto.place_symbol symbol cell over choices field =
      Except.error GameError.notImplementedError ∧
    GameType.notakto.winner field player symbol =
      Except.error GameError.notImplementedError ∧
    GameType.notakto.get_symbol_choices player pts =
      Except.error GameError.notImplementedError ∧
    GameError.notImplementedError ≠ GameError.keyError ∧
    (∀ msg : String, GameError.notImplementedError ≠ GameError.valueError msg) :=
  ⟨rfl, rfl, rfl, by simp, by simp⟩

/-- Inversion of a successful construction: all three validations passed
and the model is the literal initial state. -/
lemma init_ok_inv (gs : Nat) (ps : List Symbol) (pc : Nat) (g : GameType)
    (m : GridGameModel) (h : GridGameModel.init gs ps pc g = Except.ok m) :
    1 < pc ∧ ps.Nodup ∧ ps.length = pc ∧
    m = { valid_symbols := ps, game_type := g,
          field := { grid_size := gs, cells := [] },
          player_count := pc, player_to_symbol := assign_symbols 1 ps,
          current_player := 1 } := by
  unfold GridGameModel.init at h
  by_cases h1 : pc ≤ 1
  · rw [if_pos h1] at h
    exact Except.noConfusion h
  · rw [if_neg h1] at h
    by_cases h2 : ps.Nodup
    · rw [if_neg (by simp [h2])] at h
      by_cases h3 : ps.length = pc
      · rw [if_neg (by simp [h3])] at h
        simp only [Except.ok.injEq] at h
        exact ⟨by omega, h2, h3, h.symm⟩
      · rw [if_pos (by simp [h3])] at h
        exact Except.noConfusion h
    · rw [if_pos (by simp [h2])] at h
      exact Except.noConfusion h

/-- Lookup in the enumerate-from-k assignment: player p is mapped exactly
when k ≤ p < k + length, to the symbol at index p − k. -/
lemma assign_symbols_lookup (ss : List Symbol) (k p : Nat) :
    (assign_symbols k ss).lookup p =
      if k ≤ p ∧ p < k + ss.length then ss[p - k]? else none := by
  induction ss generalizing k with
  | nil => simp [assign_symbols]
  | cons s rest ih =>
    simp only [List.length_cons]
    by_cases hpk : p = k
    · have hbeq : (p == k) = true := beq_iff_eq.mpr hpk
      have hcond : k ≤ p ∧ p < k + (rest.length + 1) := by omega
      rw [if_pos hcond]
      simp only [assign_symbols, List.lookup, hbeq]
      have h0 : p - k = 0 := by omega
      rw [h0, List.getElem?_cons_zero]
    · have hbeq : (p == k) = false := beq_eq_false_iff_ne.mpr hpk
      simp only [assign_symbols, List.lookup, hbeq]
      rw [ih (k + 1)]
      by_cases hle : k + 1 ≤ p
      · by_cases hlt : p < k + 1 + rest.length
        · have hc2 : k ≤ p ∧ p < k + (rest.length + 1) := by omega
          rw [if_pos ⟨hle, hlt⟩, if_pos hc2]
          have hsub : p - k = (p - (k + 1)) + 1 := by omega
          rw [hsub, List.getElem?_cons_succ]
        · have hn1 : ¬(k + 1 ≤ p ∧ p < k + 1 + rest.length) := by omega
          have hn2 : ¬(k ≤ p ∧ p < k + (rest.length + 1)) := by omega
          rw [if_neg hn1, if_neg hn2]
      · have hn1 : ¬(k + 1 ≤ p ∧ p < k + 1 + rest.length) := by omega
        have hn2 : ¬(k ≤ p ∧ p < k + (rest.length + 1)) := by omega
        rw [if_neg hn1, if_neg hn2]

/-- The values of the enumerate-from-k assignment, in order, are exactly
the symbol list. -/
lemma assign_symbols_map_snd (ss : List Symbol) (k : Nat) :
    (assign_symbols k ss).map Prod.snd = ss := by
  induction ss generalizing k with
  | nil => rfl
  | cons s rest ih => simp [assign_symbols, ih]

/-- C8: construction fails with an invalid-argument error when
player_count ≤ 1, or the symbols contain a duplicate, or the symbol count
differs from player_count; for all other inputs it succeeds with
current_player = 1. -/
theorem C8_init_validation (gs : Nat) (ps : List Symbol) (pc : Nat) (g : GameType) :
    (pc ≤ 1 ∨ ¬ ps.Nodup ∨ ps.length ≠ pc →
      ∃ msg, GridGameModel.init gs ps pc g = Except.error (GameError.valueError msg)) ∧
    (1 < pc → ps.Nodup → ps.length = pc →
      ∃ m, GridGameModel.init gs ps pc g = Except.ok m ∧ m.current_player = 1) := by
  constructor
  · intro h
    unfold GridGameModel.init
    by_cases h1 : pc ≤ 1
    · exact ⟨_, by rw [if_pos h1]⟩
    · by_cases h2 : ps.Nodup
      · have h3 : ps.length ≠ pc := by tauto
        exact ⟨_, by rw [if_neg h1, if_neg (by simp [h2]), if_pos (by simp [h3])]⟩
      · exact ⟨_, by rw [if_neg h1, if_pos (by simp [h2])]⟩
  · intro h1 h2 h3
    refine ⟨{ valid_symbols := ps, game_type := g,
              field := { grid_size := gs, cells := [] },
              player_count := pc, player_to_symbol := assign_symbols 1 ps,
              current_player := 1 }, ?_, rfl⟩
    unfold GridGameModel.init
    rw [if_neg (by omega), if_neg (by simp [h2]), if_neg (by simp [h3])]

/-- Witness for C8 at concrete inputs: a valid construction succeeds with
current_player 1; player_count 1, duplicate symbols, and a symbol count
different from player_count each fail with an invalid-argument error. -/
theorem C8_witness :
    (∃ m, GridGameModel.init 3 ["X", "O"] 2 GameType.tictactoe = Except.ok m ∧
       m.current_player = 1) ∧
    (∃ msg, GridGameModel.init 3 ["X"] 1 GameType.tictactoe =
       Except.error (GameError.valueError msg)) ∧
    (∃ msg, GridGameModel.init 3 ["X", "X"] 2 GameType.tictactoe =
       Except.error (GameError.valueError msg)) ∧
    (∃ msg, GridGameModel.init 3 ["X"] 2 GameType.tictactoe =
       Except.error (GameError.valueError msg)) :=
  ⟨(C8_init_validation 3 ["X", "O"] 2 GameType.tictactoe).2 (by decide) (by decide) rfl,
   (C8_init_validation 3 ["X"] 1 GameType.tictactoe).1 (Or.inl (by decide)),
   (C8_init_validation 3 ["X", "X"] 2 GameType.tictactoe).1 (Or.inr (Or.inl (by decide))),
   (C8_init_validation 3 ["X"] 2 GameType.tictactoe).1 (Or.inr (Or.inr (by decide)))⟩

/-- Case analysis of a strategy placement that returned normally: on
VALID the field gained the symbol at the cell; on any other feedback the
field is returned unchanged. -/
lemma strategy_place_cases (g : GameType) (s : Symbol) (c : Cell) (over : Bool)
    (choices : List Symbol) (field : Field) (fb : Feedback) (field2 : Field)
    (h : g.place_symbol s c over choices field = Except.ok (fb, field2)) :
    (fb = Feedback.VALID ∧ field2 = field.place_symbol s c) ∨
    (fb ≠ Feedback.VALID ∧ field2 = field) := by
  cases g with
  | notakto => exact Except.noConfusion h
  | tictactoe =>
    simp only [GameType.place_symbol, Except.ok.injEq] at h
    unfold TicTacToeGameType.place_symbol at h
    repeat' split at h
    all_goals simp only [Prod.mk.injEq] at h
    all_goals rcases h with ⟨rfl, rfl⟩
    all_goals first
      | exact Or.inl ⟨rfl, rfl⟩
      | exact Or.inr ⟨by decide, rfl⟩
  | wild =>
    simp only [GameType.place_symbol, Except.ok.injEq] at h
    unfold WildTicTacToeGameType.place_symbol at h
    repeat' split at h
    all_goals simp only [Prod.mk.injEq] at h
    all_goals rcases h with ⟨rfl, rfl⟩
    all_goals first
      | exact Or.inl ⟨rfl, rfl⟩
      | exact Or.inr ⟨by decide, rfl⟩

/-- Inversion of an orchestrator placement that returned normally: the
pre-move game-over query succeeded, the strategy returned the feedback and
the updated field, and the resulting model is the field-updated model,
switched to the next player exactly when the feedback is VALID and the
re-queried game-over flag is false. -/
lemma place_symbol_ok_inv (m : GridGameModel) (s : Symbol) (c : Cell)
    (fb : Feedback) (m2 : GridGameModel)
    (h : m.place_symbol s c = Except.ok (fb, m2)) :
    ∃ over field2,
      m.is_game_over = Except.ok over ∧
      m.game_type.place_symbol s c over m.valid_symbols m.field = Except.ok (fb, field2) ∧
      ((fb ≠ Feedback.VALID ∧ m2 = { m with field := field2 }) ∨
       (fb = Feedback.VALID ∧
         ((({ m with field := field2 } : GridGameModel).is_game_over = Except.ok true ∧
             m2 = { m with field := field2 }) ∨
          (({ m with field := field2 } : GridGameModel).is_game_over = Except.ok false ∧
             m2 = ({ m with field := field2 } : GridGameModel).switch_to_next_player)))) := by
  unfold GridGameModel.place_symbol at h
  cases hov : m.is_game_over with
  | error e => rw [hov] at h; exact Except.noConfusion h
  | ok over =>
    rw [hov] at h
    simp only [] at h
    cases hst : m.game_type.place_symbol s c over m.valid_symbols m.field with
    | error e => rw [hst] at h; exact Except.noConfusion h
    | ok pr =>
      obtain ⟨fb0, field2⟩ := pr
      rw [hst] at h
      simp only [] at h
      by_cases hfb : fb0 = Feedback.VALID
      · rw [if_pos hfb] at h
        cases hov2 : ({ m with field := field2 } : GridGameModel).is_game_over with
        | error e => rw [hov2] at h; exact Except.noConfusion h
        | ok over2 =>
          rw [hov2] at h
          simp only [] at h
          cases over2 with
          | true =>
            rw [if_pos rfl] at h
            simp only [Except.ok.injEq, Prod.mk.injEq] at h
            obtain ⟨rfl, rfl⟩ := h
            exact ⟨over, field2, rfl, hst, Or.inr ⟨hfb, Or.inl ⟨hov2, rfl⟩⟩⟩
          | false =>
            rw [if_neg (by simp)] at h
            simp only [Except.ok.injEq, Prod.mk.injEq] at h
            obtain ⟨rfl, rfl⟩ := h
            exact ⟨over, field2, rfl, hst, Or.inr ⟨hfb, Or.inr ⟨hov2, rfl⟩⟩⟩
      · rw [if_neg hfb] at h
        simp only [Except.ok.injEq, Prod.mk.injEq] at h
        obtain ⟨rfl, rfl⟩ := h
        exact ⟨over, field2, rfl, hst, Or.inl ⟨hfb, rfl⟩⟩

/-- A normal placement never changes the roster fields, and either leaves
the turn alone or advances it to the pre-move next_player. -/
lemma place_symbol_ok_player (m : GridGameModel) (s : Symbol) (c : Cell)
    (fb : Feedback) (m2 : GridGameModel)
    (h : m.place_symbol s c = Except.ok (fb, m2)) :
    m2.player_count = m.player_count ∧ m2.game_type = m.game_type ∧
    m2.valid_symbols = m.valid_symbols ∧ m2.player_to_symbol = m.player_to_symbol ∧
    (m2.current_player = m.current_player ∨ m2.current_player = m.next_player) := by
  obtain ⟨over, field2, hov, hst, hcase⟩ := place_symbol_ok_inv m s c fb m2 h
  rcases hcase with ⟨-, rfl⟩ | ⟨-, hcase2⟩
  · exact ⟨rfl, rfl, rfl, rfl, Or.inl rfl⟩
  · rcases hcase2 with ⟨-, rfl⟩ | ⟨-, rfl⟩
    · exact ⟨rfl, rfl, rfl, rfl, Or.inl rfl⟩
    · exact ⟨rfl, rfl, rfl, rfl, Or.inr rfl⟩

/-- Membership in valid_coords is exactly the integer range 1..grid_size. -/
lemma mem_valid_coords (f : Field) (x : Int) :
    x ∈ f.valid_coords ↔ 1 ≤ x ∧ x ≤ (f.grid_size : Int) := by
  unfold Field.valid_coords
  simp only [List.mem_map, List.mem_range]
  constructor
  · rintro ⟨a, ha, rfl⟩
    have ha0 : (0 : Int) ≤ (a : Int) := Int.natCast_nonneg a
    have ha2 : (a : Int) < (f.grid_size : Int) := by exact_mod_cast ha
    omega
  · rintro ⟨h1, h2⟩
    obtain ⟨a, ha⟩ : ∃ a : Nat, (a : Int) = x - 1 :=
      ⟨(x - 1).toNat, Int.toNat_of_nonneg (by omega)⟩
    refine ⟨a, ?_, ?_⟩
    · have hai : (a : Int) < (f.grid_size : Int) := by omega
      exact_mod_cast hai
    · omega

/-- A group wins exactly when it is nonempty and all its cells hold one
equal symbol (which forces the first cell to be occupied). -/
lemma group_wins_iff (f : Field) (g : List Cell) :
    group_wins f g = true ↔ ∃ b, g ≠ [] ∧ ∀ c ∈ g, f.get_symbol_at c = some b := by
  cases g with
  | nil => simp [group_wins]
  | cons c0 rest =>
    unfold group_wins
    simp only [List.head?_cons]
    cases hc : f.get_symbol_at c0 with
    | none =>
      simp only []
      constructor
      · intro hfalse
        exact absurd hfalse (by simp)
      · rintro ⟨b, -, hall⟩
        have hcb := hall c0 (List.mem_cons_self c0 rest)
        rw [hc] at hcb
        exact absurd hcb (by simp)
    | some basis =>
      simp only []
      unfold Field.are_all_equal_to_basis
      rw [List.all_eq_true]
      constructor
      · intro hall
        refine ⟨basis, by simp, ?_⟩
        intro c hcmem
        have hbc := hall c hcmem
        rwa [beq_iff_eq] at hbc
      · rintro ⟨b, -, hall⟩
        have hb : basis = b := by
          have hcb := hall c0 (List.mem_cons_self c0 rest)
          rw [hc] at hcb
          exact Option.some_inj.mp hcb
        intro c hcmem
        rw [beq_iff_eq, hall c hcmem, hb]

/-- A line obtained by mapping a cell-valued function over valid_coords
wins exactly when the grid is nonempty and one symbol fills the whole
parameterised line over 1..grid_size. -/
lemma mapline_wins_iff (f : Field) (line : Int → Cell) :
    group_wins f (f.valid_coords.map line) = true ↔
      0 < f.grid_size ∧ ∃ b, ∀ k : Int, 1 ≤ k → k ≤ (f.grid_size : Int) →
        f.get_symbol_at (line k) = some b := by
  rw [group_wins_iff]
  constructor
  · rintro ⟨b, hne, hall⟩
    have hgs : 0 < f.grid_size := by
      rcases Nat.eq_zero_or_pos f.grid_size with hz | hp
      · exfalso
        apply hne
        have hvc : f.valid_coords = [] := by simp [Field.valid_coords, hz]
        rw [hvc, List.map_nil]
      · exact hp
    refine ⟨hgs, b, ?_⟩
    intro k h1 h2
    exact hall (line k) (List.mem_map_of_mem line ((mem_valid_coords f k).mpr ⟨h1, h2⟩))
  · rintro ⟨hgs, b, hall⟩
    refine ⟨b, ?_, ?_⟩
    · have hone : (1 : Int) ∈ f.valid_coords := by
        rw [mem_valid_coords]
        omega
      intro hnil
      rw [List.map_eq_nil_iff] at hnil
      rw [hnil] at hone
      exact List.not_mem_nil 1 hone
    · intro c hcmem
      obtain ⟨k, hk, rfl⟩ := List.mem_map.mp hcmem
      obtain ⟨h1, h2⟩ := (mem_valid_coords f k).mp hk
      exact hall k h1 h2

/-- Written from the spec's words for winner: some full row, some full
column, the backslash diagonal, or the forward-slash diagonal (column =
grid_size − row + 1) consists entirely of occupied cells holding one equal
symbol, the coordinates ranging over 1..grid_size. -/
def spec_line_win (f : Field) : Prop :=
  (∃ r b, (1 ≤ r ∧ r ≤ (f.grid_size : Int)) ∧
     ∀ k : Int, 1 ≤ k → k ≤ (f.grid_size : Int) →
       f.get_symbol_at (Cell.mk r k) = some b) ∨
  (∃ c b, (1 ≤ c ∧ c ≤ (f.grid_size : Int)) ∧
     ∀ k : Int, 1 ≤ k → k ≤ (f.grid_size : Int) →
       f.get_symbol_at (Cell.mk k c) = some b) ∨
  (0 < f.grid_size ∧ ∃ b, ∀ k : Int, 1 ≤ k → k ≤ (f.grid_size : Int) →
     f.get_symbol_at (Cell.mk k k) = some b) ∨
  (0 < f.grid_size ∧ ∃ b, ∀ k : Int, 1 ≤ k → k ≤ (f.grid_size : Int) →
     f.get_symbol_at (Cell.mk k ((f.grid_size : Int) - k + 1)) = some b)

/-- The scan finds a winning group exactly when the spec-side line-win
condition holds. -/
lemma exists_winning_group_iff (f : Field) :
    (∃ g ∈ line_groups f, group_wins f g = true) ↔ spec_line_win f := by
  constructor
  · rintro ⟨g, hg, hw⟩
    unfold line_groups at hg
    simp only [List.mem_append, List.mem_map, List.mem_cons,
      List.not_mem_nil, or_false] at hg
    rcases hg with (⟨r, hr, rfl⟩ | ⟨c, hc, rfl⟩) | (rfl | rfl)
    · obtain ⟨hgs, b, hall⟩ := (mapline_wins_iff f _).mp hw
      obtain ⟨hr1, hr2⟩ := (mem_valid_coords f r).mp hr
      exact Or.inl ⟨r, b, ⟨hr1, hr2⟩, hall⟩
    · obtain ⟨hgs, b, hall⟩ := (mapline_wins_iff f _).mp hw
      obtain ⟨hc1, hc2⟩ := (mem_valid_coords f c).mp hc
      exact Or.inr (Or.inl ⟨c, b, ⟨hc1, hc2⟩, hall⟩)
    · obtain ⟨hgs, b, hall⟩ := (mapline_wins_iff f _).mp hw
      exact Or.inr (Or.inr (Or.inl ⟨hgs, b, hall⟩))
    · obtain ⟨hgs, b, hall⟩ := (mapline_wins_iff f _).mp hw
      exact Or.inr (Or.inr (Or.inr ⟨hgs, b, hall⟩))
  · intro hwin
    rcases hwin with ⟨r, b, ⟨hr1, hr2⟩, hall⟩ | ⟨c, b, ⟨hc1, hc2⟩, hall⟩ |
      ⟨hgs, b, hall⟩ | ⟨hgs, b, hall⟩
    · refine ⟨f.valid_coords.map (fun k => Cell.mk r k), ?_, ?_⟩
      · unfold line_groups
        exact List.mem_append_left _ (List.mem_append_left _
          (List.mem_map_of_mem _ ((mem_valid_coords f r).mpr ⟨hr1, hr2⟩)))
      · exact (mapline_wins_iff f _).mpr ⟨by omega, b, hall⟩
    · refine ⟨f.valid_coords.map (fun k => Cell.mk k c), ?_, ?_⟩
      · unfold line_groups
        exact List.mem_append_left _ (List.mem_append_right _
          (List.mem_map_of_mem _ ((mem_valid_coords f c).mpr ⟨hc1, hc2⟩)))
      · exact (mapline_wins_iff f _).mpr ⟨by omega, b, hall⟩
    · refine ⟨f.valid_coords.map (fun k => Cell.mk k k), ?_, ?_⟩
      · unfold line_groups
        exact List.mem_append_right _ (List.mem_cons_self _ _)
      · exact (mapline_wins_iff f _).mpr ⟨hgs, b, hall⟩
    · refine ⟨f.valid_coords.map
        (fun k => Cell.mk k ((f.grid_size : Int) - k + 1)), ?_, ?_⟩
      · unfold line_groups
        exact List.mem_append_right _
          (List.mem_cons_of_mem _ (List.mem_cons_self _ _))
      · exact (mapline_wins_iff f _).mpr ⟨hgs, b, hall⟩

/-- The Classic winner scan reports the passed player exactly when the
spec-side line-win condition holds. -/
lemma winner_eq_some_iff (f : Field) (p : Nat) (s : Symbol) :
    TicTacToeGameType.winner f p s = some p ↔ spec_line_win f := by
  rw [← exists_winning_group_iff]
  unfold TicTacToeGameType.winner
  cases hf : (line_groups f).find? (group_wins f) with
  | none =>
    simp only []
    constructor
    · intro hc
      exact absurd hc (by simp)
    · rintro ⟨g, hg, hw⟩
      have hng := List.find?_eq_none.mp hf g hg
      exact absurd hw hng
  | some g0 =>
    simp only []
    constructor
    · rintro -
      exact ⟨g0, List.mem_of_find?_eq_some hf, List.find?_some hf⟩
    · rintro -
      trivial

/-- The scan returns either the passed player or nothing. -/
lemma winner_cases (f : Field) (p : Nat) (s : Symbol) :
    TicTacToeGameType.winner f p s = some p ∨ TicTacToeGameType.winner f p s = none := by
  unfold TicTacToeGameType.winner
  cases (line_groups f).find? (group_wins f) <;> simp

/-- The Classic winner scan reports no winner exactly when the spec-side
line-win condition fails. -/
lemma winner_eq_none_iff (f : Field) (p : Nat) (s : Symbol) :
    TicTacToeGameType.winner f p s = none ↔ ¬ spec_line_win f := by
  constructor
  · intro hn hs
    rw [← winner_eq_some_iff f p s] at hs
    rw [hn] at hs
    exact Option.noConfusion hs
  · intro hns
    rcases winner_cases f p s with h | h
    · exact absurd ((winner_eq_some_iff f p s).mp h) hns
    · exact h

/-- C2 counterexample: with the first row filled with O and no X anywhere
on the board, winner(field, 1, X) still reports player 1 as the winner,
refuting the claim that a win is reported only for a line of the passed
symbol. -/
theorem C2_counterexample :
    TicTacToeGameType.winner rowO_field 1 "X" = some 1 ∧
    rowO_field.cells.all (fun q => !(q.2 == "X")) = true ∧
    ("O" = "X") = False := by
  refine ⟨by decide, by decide, by decide⟩

/-- C2 (amended): the winner scan ignores the passed symbol entirely —
the result is the same for any two symbols, the Wild scan coincides with
the Classic one, and the passed player is reported exactly when some full
row, column, or diagonal consists of one equal symbol, whichever symbol
that is. -/
theorem C2_winner_symbol_agnostic (f : Field) (p : Nat) (s t : Symbol) :
    TicTacToeGameType.winner f p s = TicTacToeGameType.winner f p t ∧
    WildTicTacToeGameType.winner f p s = TicTacToeGameType.winner f p s ∧
    (TicTacToeGameType.winner f p s = some p ↔ spec_line_win f) :=
  ⟨rfl, rfl, winner_eq_some_iff f p s⟩

/-- C7: the scan reports the passed player exactly when some full row,
full column, backslash diagonal, or forward-slash diagonal (column =
grid_size − row + 1), with coordinates in 1..grid_size, is filled by one
equal symbol (an unoccupied first cell can never satisfy this, so such
lines are skipped); it reports None exactly otherwise; and any reported
winner is the passed player, never an owner derived from the line's
symbol. -/
theorem C7_winner_scan (f : Field) (p : Nat) (s : Symbol) :
    (TicTacToeGameType.winner f p s = some p ↔ spec_line_win f) ∧
    (TicTacToeGameType.winner f p s = none ↔ ¬ spec_line_win f) ∧
    (∀ q : Nat, TicTacToeGameType.winner f p s = some q → q = p) := by
  refine ⟨winner_eq_some_iff f p s, winner_eq_none_iff f p s, ?_⟩
  intro q hq
  rcases winner_cases f p s with h | h
  · rw [h] at hq
    exact (Option.some_inj.mp hq).symm
  · rw [h] at hq
    exact Option.noConfusion hq

/-- Witness for C7 at a concrete input: on the all-O first row board the
scan applied to player 1 reports exactly player 1. -/
theorem C7_witness :
    TicTacToeGameType.winner rowO_field 1 "O" = some 1 ∧ (1 : Nat) = 1 :=
  ⟨by decide, (C7_winner_scan rowO_field 1 "O").2.2 1 (by decide)⟩

/-- C4: when an orchestrator placement returns VALID, the turn advances
to next_player exactly when the game-over query on the post-placement
board (evaluated before any switch, as the source does) is false; when
that query is true (win or full board), current_player stays at the
player who just moved. -/
theorem C4_turn_advance (m : GridGameModel) (s : Symbol) (c : Cell) (m2 : GridGameModel)
    (h : m.place_symbol s c = Except.ok (Feedback.VALID, m2)) :
    (({ m with field := m2.field } : GridGameModel).is_game_over = Except.ok false →
       m2.current_player = m.next_player) ∧
    (({ m with field := m2.field } : GridGameModel).is_game_over = Except.ok true →
       m2.current_player = m.current_player) := by
  obtain ⟨over, field2, -, hst, hcase⟩ := place_symbol_ok_inv m s c Feedback.VALID m2 h
  rcases hcase with ⟨hne, -⟩ | ⟨-, hcase2⟩
  · exact absurd rfl hne
  · rcases hcase2 with ⟨hover, rfl⟩ | ⟨hover, rfl⟩
    · constructor
      · intro hfalse
        exact absurd (hover.symm.trans hfalse) (by simp)
      · intro _
        rfl
    · constructor
      · intro _
        rfl
      · intro htrue
        exact absurd (hover.symm.trans htrue) (by simp)

/-- Post-state of placing X at (1,1) in the fresh Classic X/O match. -/
def afterX11 : GridGameModel :=
  { classicXO with
      field := { grid_size := 3, cells := [(Cell.mk 1 1, "X")] }
      current_player := 2 }

/-- Witness for C4 at a concrete input: player 1 places X at (1,1) on the
fresh board, the game is not over afterwards, and the turn advances to
player 2 = next_player. -/
theorem C4_witness :
    classicXO.place_symbol "X" (Cell.mk 1 1) = Except.ok (Feedback.VALID, afterX11) ∧
    ({ classicXO with field := afterX11.field } : GridGameModel).is_game_over =
      Except.ok false ∧
    afterX11.current_player = classicXO.next_player :=
  ⟨by decide, by decide,
    (C4_turn_advance classicXO "X" (Cell.mk 1 1) afterX11 (by decide)).1 (by decide)⟩

/-- C5: a placement that returns any non-VALID feedback leaves both the
board's occupied-cell mapping and current_player exactly as they were. -/
theorem C5_rejection_preserves_state (m : GridGameModel) (s : Symbol) (c : Cell)
    (fb : Feedback) (m2 : GridGameModel)
    (h : m.place_symbol s c = Except.ok (fb, m2)) (hfb : fb ≠ Feedback.VALID) :
    m2.field.occupied_cells = m.field.occupied_cells ∧
    m2.current_player = m.current_player := by
  obtain ⟨over, field2, -, hst, hcase⟩ := place_symbol_ok_inv m s c fb m2 h
  rcases hcase with ⟨-, rfl⟩ | ⟨hfb2, -⟩
  · rcases strategy_place_cases m.game_type s c over m.valid_symbols m.field fb field2 hst
      with ⟨hv, -⟩ | ⟨-, rfl⟩
    · exact absurd hv hfb
    · exact ⟨rfl, rfl⟩
  · exact absurd hfb2 hfb

/-- Witness for C5 at a concrete input: placing the unassigned symbol Z is
rejected with INVALID_SYMBOL and the model is returned unchanged. -/
theorem C5_witness :
    classicXO.place_symbol "Z" (Cell.mk 1 1) =
      Except.ok (Feedback.INVALID_SYMBOL, classicXO) ∧
    classicXO.field.occupied_cells = classicXO.field.occupied_cells ∧
    classicXO.current_player = classicXO.current_player :=
  ⟨by decide,
    (C5_rejection_preserves_state classicXO "Z" (Cell.mk 1 1)
      Feedback.INVALID_SYMBOL classicXO (by decide) (by decide)).1,
    (C5_rejection_preserves_state classicXO "Z" (Cell.mk 1 1)
      Feedback.INVALID_SYMBOL classicXO (by decide) (by decide)).2⟩

/-- Reachable states of a match: a successful construction, followed by
any sequence of placements that returned normally. -/
inductive Reachable : GridGameModel → Prop where
  | start (gs : Nat) (ps : List Symbol) (pc : Nat) (g : GameType) (m : GridGameModel) :
      GridGameModel.init gs ps pc g = Except.ok m → Reachable m
  | step (m : GridGameModel) (s : Symbol) (c : Cell) (fb : Feedback)
      (m2 : GridGameModel) : Reachable m →
      m.place_symbol s c = Except.ok (fb, m2) → Reachable m2

/-- Invariant carried by every reachable state: at least two players, and
the current player within 1..player_count. -/
lemma reachable_bounds (m : GridGameModel) (h : Reachable m) :
    2 ≤ m.player_count ∧ 1 ≤ m.current_player ∧
    m.current_player ≤ m.player_count := by
  induction h with
  | start gs ps pc g m hinit =>
    obtain ⟨hpc, -, -, hm⟩ := init_ok_inv gs ps pc g m hinit
    subst hm
    exact ⟨hpc, Nat.le_refl 1, le_of_lt hpc⟩
  | step m s c fb m2 hr hps ih =>
    have hnp : 1 ≤ m.next_player ∧ m.next_player ≤ m.player_count := by
      unfold GridGameModel.next_player
      by_cases hc : m.current_player = m.player_count
      · rw [if_neg (not_not_intro hc)]
        omega
      · rw [if_pos hc]
        omega
    obtain ⟨hpc2, -, -, -, hcur⟩ := place_symbol_ok_player m s c fb m2 hps
    rcases hcur with heq | heq <;> rw [hpc2, heq] <;> omega

/-- C6: in every reachable state, current_player lies in 1..player_count,
and next_player is current_player + 1 except that it wraps to 1 when
current_player equals player_count. -/
theorem C6_current_player_invariant (m : GridGameModel) (h : Reachable m) :
    1 ≤ m.current_player ∧ m.current_player ≤ m.player_count ∧
    (m.current_player = m.player_count → m.next_player = 1) ∧
    (m.current_player ≠ m.player_count → m.next_player = m.current_player + 1) := by
  obtain ⟨h2, hlo, hhi⟩ := reachable_bounds m h
  refine ⟨hlo, hhi, ?_, ?_⟩
  · intro hc
    unfold GridGameModel.next_player
    rw [if_neg (not_not_intro hc)]
  · intro hc
    unfold GridGameModel.next_player
    rw [if_pos hc]

/-- Witness for C6 at a concrete reachable state: the freshly constructed
Classic X/O match. -/
theorem C6_witness :
    Reachable classicXO ∧
    1 ≤ classicXO.current_player ∧
    classicXO.current_player ≤ classicXO.player_count ∧
    (classicXO.current_player = classicXO.player_count → classicXO.next_player = 1) ∧
    (classicXO.current_player ≠ classicXO.player_count →
       classicXO.next_player = classicXO.current_player + 1) :=
  have hre : Reachable classicXO :=
    Reachable.start 3 ["X", "O"] 2 GameType.tictactoe classicXO (by decide)
  ⟨hre, C6_current_player_invariant classicXO hre⟩

/-- C9: on a successfully constructed Classic or Wild match,
get_symbol_choices(player) fails with an invalid-argument error exactly
when player is outside 1..player_count; in range, Classic returns the
one-element list of the player's assigned symbol and Wild returns the full
symbol list in player order. -/
theorem C9_symbol_choices (gs : Nat) (ps : List Symbol) (pc : Nat) (g : GameType)
    (m : GridGameModel) (p : Nat)
    (hg : g = GameType.tictactoe ∨ g = GameType.wild)
    (h : GridGameModel.init gs ps pc g = Except.ok m) :
    (¬(1 ≤ p ∧ p ≤ m.player_count) →
       m.get_symbol_choices p = Except.error (GameError.valueError "Invalid player")) ∧
    (1 ≤ p → p ≤ m.player_count →
       (g = GameType.tictactoe →
          ∃ s, ps[p - 1]? = some s ∧ m.get_symbol_choices p = Except.ok [s]) ∧
       (g = GameType.wild → m.get_symbol_choices p = Except.ok ps)) := by
  obtain ⟨hpc, hnd, hlen, hm⟩ := init_ok_inv gs ps pc g m h
  have hpcm : m.player_count = pc := by rw [hm]
  have hpts : m.player_to_symbol = assign_symbols 1 ps := by rw [hm]
  have hgt2 : m.game_type = g := by rw [hm]
  have hchoices : m.get_symbol_choices p =
      GameType.get_symbol_choices g p (assign_symbols 1 ps) := by
    unfold GridGameModel.get_symbol_choices
    rw [hgt2, hpts]
  have hlk : (assign_symbols 1 ps).lookup p =
      if 1 ≤ p ∧ p < 1 + ps.length then ps[p - 1]? else none :=
    assign_symbols_lookup ps 1 p
  constructor
  · intro hout
    rw [hpcm] at hout
    have hnone : (assign_symbols 1 ps).lookup p = none := by
      have hn : ¬(1 ≤ p ∧ p < 1 + ps.length) := by
        intro hc
        exact hout ⟨hc.1, by omega⟩
      rw [hlk, if_neg hn]
    rw [hchoices]
    rcases hg with rfl | rfl <;>
      simp [GameType.get_symbol_choices,
        TicTacToeGameType.get_symbol_choices, WildTicTacToeGameType.get_symbol_choices,
        hnone]
  · intro h1 h2
    rw [hpcm] at h2
    obtain ⟨s, hs⟩ : ∃ s, ps[p - 1]? = some s := by
      cases hq : ps[p - 1]? with
      | some s => exact ⟨s, rfl⟩
      | none =>
        rw [List.getElem?_eq_none_iff] at hq
        omega
    have hlkp : (assign_symbols 1 ps).lookup p = some s := by
      have hcond : 1 ≤ p ∧ p < 1 + ps.length := ⟨h1, by omega⟩
      rw [hlk, if_pos hcond]
      exact hs
    constructor
    · intro hgt
      subst hgt
      refine ⟨s, hs, ?_⟩
      rw [hchoices]
      simp [GameType.get_symbol_choices, TicTacToeGameType.get_symbol_choices, hlkp]
    · intro hgw
      subst hgw
      rw [hchoices]
      simp [GameType.get_symbol_choices,
        WildTicTacToeGameType.get_symbol_choices, hlkp, assign_symbols_map_snd]

/-- Witness for C9 at concrete inputs: in the Classic X/O match player 1
gets exactly [X]; in the Wild match player 1 gets [X, O]; asking for the
unknown player 3 fails with the invalid-argument error. -/
theorem C9_witness :
    classicXO.get_symbol_choices 1 = Except.ok ["X"] ∧
    wildXO.get_symbol_choices 1 = Except.ok ["X", "O"] ∧
    classicXO.get_symbol_choices 3 = Except.error (GameError.valueError "Invalid player") := by
  have hc := C9_symbol_choices 3 ["X", "O"] 2 GameType.tictactoe classicXO 1
    (Or.inl rfl) (by decide)
  have hw := C9_symbol_choices 3 ["X", "O"] 2 GameType.wild wildXO 1
    (Or.inr rfl) (by decide)
  have ho := C9_symbol_choices 3 ["X", "O"] 2 GameType.tictactoe classicXO 3
    (Or.inl rfl) (by decide)
  refine ⟨?_, ?_, ?_⟩
  · obtain ⟨s, hs1, hs2⟩ := (hc.2 (by decide) (by decide)).1 rfl
    simp only [show (1 : Nat) - 1 = 0 from rfl, List.getElem?_cons_zero,
      Option.some.injEq] at hs1
    subst hs1
    exact hs2
  · exact (hw.2 (by decide) (by decide)).2 rfl
  · exact ho.1 (by decide)

/-- Witness for C10 at concrete inputs. -/
theorem C10_witness :
    GameType.notakto.place_symbol "X" (Cell.mk 1 1) false ["X"] empty3 =
      Except.error GameError.notImplementedError ∧
    GameType.notakto.winner empty3 1 "X" =
      Except.error GameError.notImplementedError ∧
    GameType.notakto.get_symbol_choices 1 [(1, "X")] =
      Except.error GameError.notImplementedError :=
  ⟨(C10_notakto_not_supported "X" (Cell.mk 1 1) false ["X"] empty3 1 [(1, "X")]).1,
   (C10_notakto_not_supported "X" (Cell.mk 1 1) false ["X"] empty3 1 [(1, "X")]).2.1,
   (C10_notakto_not_supported "X" (Cell.mk 1 1) false ["X"] empty3 1 [(1, "X")]).2.2.1⟩

end GridGame
